import Mathlib

/-!
Verification of the TaskFlow AI real-time synchronization core.

The definitions below are a shallow embedding of the relevant
JavaScript source:

* `Task.hasAccess` embeds `taskSchema.methods.hasAccess` from
  `backend/src/models/Task.js`.
* The socket layer (`onConnection`, `onJoinTask`, `onTaskUpdate`,
  `onTaskComment`, `onTaskTyping`, `onTaskStatusChange`, `onDisconnect`,
  `broadcastUserStatus`) embeds the Socket.IO handler module.
* `deleteTaskRoute` embeds the DELETE route of `backend/src/routes/tasks.js`
  together with the `checkTaskAccess` middleware.

Emission is modelled as explicit message passing: every operation returns
the successor state and the list of (socket, event) deliveries the
transport would perform.
-/

namespace TaskFlow

abbrev UserId := String
abbrev SocketId := String
abbrev TaskId := String

/-- Permission levels, the enum of `sharedWith.permission` in the schema. -/
inductive Perm where
  | view
  | edit
  | admin
deriving DecidableEq, Repr

/-- Position in the array `["view", "edit", "admin"]` (the `indexOf` used by
`hasAccess` for the permission hierarchy). -/
def permIndex : Perm → Nat
  | .view => 0
  | .edit => 1
  | .admin => 2

/-- An entry of `task.assignees`: `{ user, role }` (timestamps dropped). -/
structure Assignee where
  user : UserId
  role : String
deriving DecidableEq, Repr

/-- An entry of `task.sharedWith`: `{ user, permission }` (timestamp dropped). -/
structure Share where
  user : UserId
  permission : Perm
deriving DecidableEq, Repr

/-- A task record as consumed by the synchronization core. -/
structure Task where
  id : TaskId
  owner : UserId
  assignees : List Assignee
  sharedWith : List Share
  subtasks : List TaskId
  title : String
  status : String
deriving DecidableEq, Repr

/-- Embedding of `taskSchema.methods.hasAccess(userId, permission)`:
owner always has access; any assignee has access; otherwise the first
`sharedWith` entry for the user decides by comparing `indexOf` ranks;
no entry means denied. -/
def Task.hasAccess (t : Task) (userId : UserId) (permission : Perm) : Bool :=
  if t.owner == userId then
    true
  else if t.assignees.any (fun a => a.user == userId) then
    true
  else
    match t.sharedWith.find? (fun s => s.user == userId) with
    | none => false
    | some s => decide (permIndex permission ≤ permIndex s.permission)

/-- A concrete task: owned by u1, with u2 as its only assignee and an
empty share list. -/
def taskAssigned : Task :=
  { id := "T1"
    owner := "u1"
    assignees := [{ user := "u2", role := "assignee" }]
    sharedWith := []
    subtasks := []
    title := "Demo task"
    status := "todo" }

/-- A concrete task: owned by u1 and shared with u3 at edit permission;
u3 is not an assignee. -/
def taskSharedEdit : Task :=
  { id := "T2"
    owner := "u1"
    assignees := []
    sharedWith := [{ user := "u3", permission := .edit }]
    subtasks := []
    title := "Shared task"
    status := "todo" }

/-- A Socket.IO room name: either the per-user inbox room `user:<id>` or a
per-task collaboration room `task:<id>`. -/
inductive RoomId where
  | userRoom (u : UserId)
  | taskRoom (t : TaskId)
deriving DecidableEq, Repr

instance : BEq RoomId := ⟨fun a b => decide (a = b)⟩

instance : LawfulBEq RoomId where
  eq_of_beq h := of_decide_eq_true h
  rfl := decide_eq_true rfl

/-- Events pushed to clients, with the payload fields the claims refer to. -/
inductive Event where
  | connected (uid : UserId)
  | joinedTask (taskId : TaskId)
  | userJoined (uid : UserId) (taskId : TaskId)
  | leftTask (taskId : TaskId)
  | userLeft (uid : UserId) (taskId : TaskId)
  | userLeftDisconnected (uid : UserId)
  | errorMsg (msg : String)
  | taskUpdated (taskId : TaskId) (byUser : UserId)
  | taskCommentNew (taskId : TaskId) (byUser : UserId)
  | typingStatus (taskId : TaskId) (byUser : UserId) (isTyping : Bool)
  | taskStatusChanged (taskId : TaskId) (fromS toS : String) (byUser : UserId)
  | notification (taskId : TaskId) (fromUser : UserId) (toStatus : String)
  | userStatus (uid : UserId) (status : String)
deriving DecidableEq, Repr

/-- One delivery performed by the transport: target socket and event. -/
abbrev Delivery := SocketId × Event

/-- The mutable server state: the task store, the `connectedUsers` map
(keyed by user id, holding the socket id of the stored connection record),
and the room membership relation (socket, room) maintained by Socket.IO. -/
structure SocketState where
  tasks : List Task
  connectedUsers : List (UserId × SocketId)
  members : List (SocketId × RoomId)
deriving DecidableEq, Repr

/-- `Map.set` on the `connectedUsers` association list: overwrites the entry
for the key if present, appends otherwise. -/
def mapSet (m : List (UserId × SocketId)) (k : UserId) (v : SocketId) :
    List (UserId × SocketId) :=
  match m with
  | [] => [(k, v)]
  | (k₁, v₁) :: rest =>
      if k₁ == k then (k, v) :: rest else (k₁, v₁) :: mapSet rest k v

/-- `Map.delete` on the `connectedUsers` association list. -/
def mapDelete (m : List (UserId × SocketId)) (k : UserId) :
    List (UserId × SocketId) :=
  m.filter (fun p => p.1 != k)

/-- `Map.get` on the `connectedUsers` association list. -/
def mapLookup (m : List (UserId × SocketId)) (k : UserId) : Option SocketId :=
  (m.find? (fun p => p.1 == k)).map (fun p => p.2)

/-- The members of a room. -/
def roomMembers (ms : List (SocketId × RoomId)) (r : RoomId) : List SocketId :=
  (ms.filter (fun p => p.2 == r)).map (fun p => p.1)

/-- `socket.join(room)`: adds the membership pair if not already present. -/
def joinRoom (ms : List (SocketId × RoomId)) (sid : SocketId) (r : RoomId) :
    List (SocketId × RoomId) :=
  if ms.any (fun p => p.1 == sid && p.2 == r) then ms else ms ++ [(sid, r)]

/-- `socket.leave(room)`. -/
def leaveRoom (ms : List (SocketId × RoomId)) (sid : SocketId) (r : RoomId) :
    List (SocketId × RoomId) :=
  ms.filter (fun p => !(p.1 == sid && p.2 == r))

/-- `socket.rooms` for one socket. -/
def socketRooms (ms : List (SocketId × RoomId)) (sid : SocketId) :
    List RoomId :=
  (ms.filter (fun p => p.1 == sid)).map (fun p => p.2)

/-- Socket.IO cleanup on disconnect: the socket leaves every room. -/
def removeSocket (ms : List (SocketId × RoomId)) (sid : SocketId) :
    List (SocketId × RoomId) :=
  ms.filter (fun p => p.1 != sid)

/-- `socket.to(room).emit(e)`: deliver to every member of the room except
the sending socket. -/
def socketTo (ms : List (SocketId × RoomId)) (sender : SocketId) (r : RoomId)
    (e : Event) : List Delivery :=
  ((roomMembers ms r).filter (fun m => m != sender)).map (fun m => (m, e))

/-- `io.to(room).emit(e)`: deliver to every member of the room, the sender
included when it is a member. -/
def ioTo (ms : List (SocketId × RoomId)) (r : RoomId) (e : Event) :
    List Delivery :=
  (roomMembers ms r).map (fun m => (m, e))

/-- `Task.findById`. -/
def findById (tasks : List Task) (taskId : TaskId) : Option Task :=
  tasks.find? (fun t => t.id == taskId)

/-- The `Task.findOne` query of the join handler: a task with the given id
where the user is owner, an assignee, or a `sharedWith` entry. -/
def findOneAccessible (tasks : List Task) (taskId : TaskId) (uid : UserId) :
    Option Task :=
  tasks.find? (fun t => t.id == taskId &&
    (t.owner == uid || t.assignees.any (fun a => a.user == uid) ||
      t.sharedWith.any (fun s => s.user == uid)))

/-- The `Task.find` query of `broadcastUserStatus`: every task where the
user is an assignee, a `sharedWith` entry, or the owner. -/
def collaborativeTasks (tasks : List Task) (uid : UserId) : List Task :=
  tasks.filter (fun t => t.assignees.any (fun a => a.user == uid) ||
    t.sharedWith.any (fun s => s.user == uid) || t.owner == uid)

/-- `Set.add` with JavaScript insertion-order semantics. -/
def addUnique (l : List UserId) (u : UserId) : List UserId :=
  if l.contains u then l else l ++ [u]

/-- The collaborator set built by `broadcastUserStatus`: owner, assignees
and shared users of every collaborative task, the affected user excluded. -/
def collaboratorsOf (tasks : List Task) (uid : UserId) : List UserId :=
  (collaborativeTasks tasks uid).foldl (fun acc t =>
    let acc₁ := if t.owner == uid then acc else addUnique acc t.owner
    let acc₂ := t.assignees.foldl
      (fun acc a => if a.user == uid then acc else addUnique acc a.user) acc₁
    t.sharedWith.foldl
      (fun acc s => if s.user == uid then acc else addUnique acc s.user) acc₂) []

/-- Embedding of `broadcastUserStatus(io, userId, status)`: emit a
`user:status` event to the inbox room of every collaborator. -/
def broadcastUserStatus (tasks : List Task) (ms : List (SocketId × RoomId))
    (uid : UserId) (status : String) : List Delivery :=
  (collaboratorsOf tasks uid).flatMap
    (fun c => ioTo ms (.userRoom c) (.userStatus uid status))

/-- Result of one handler invocation: successor state plus deliveries. -/
structure OpResult where
  state : SocketState
  deliveries : List Delivery
deriving DecidableEq, Repr

/-- The `connection` handler: store the connection in `connectedUsers`
(keyed by user id), auto-join the personal inbox room, confirm to the new
socket, then broadcast online status to collaborators. -/
def onConnection (st : SocketState) (sid : SocketId) (uid : UserId) :
    OpResult :=
  let cu := mapSet st.connectedUsers uid sid
  let ms := joinRoom st.members sid (.userRoom uid)
  { state := { st with connectedUsers := cu, members := ms }
    deliveries := [(sid, .connected uid)] ++
      broadcastUserStatus st.tasks ms uid "online" }

/-- The `join:task` handler: the access query decides; on success the
socket joins the task room, gets a confirmation, and the other room members
are notified; on failure an error event goes back to the requester only. -/
def onJoinTask (st : SocketState) (sid : SocketId) (uid : UserId)
    (taskId : TaskId) : OpResult :=
  match findOneAccessible st.tasks taskId uid with
  | some _ =>
      let ms := joinRoom st.members sid (.taskRoom taskId)
      { state := { st with members := ms }
        deliveries := [(sid, .joinedTask taskId)] ++
          socketTo ms sid (.taskRoom taskId) (.userJoined uid taskId) }
  | none =>
      { state := st
        deliveries := [(sid, .errorMsg "Access denied to task room")] }

/-- The `task:update` handler: requires `edit` access, then broadcasts to
the task room excluding the sender. -/
def onTaskUpdate (st : SocketState) (sid : SocketId) (uid : UserId)
    (taskId : TaskId) : OpResult :=
  match findById st.tasks taskId with
  | some t =>
      if t.hasAccess uid .edit then
        { state := st
          deliveries := socketTo st.members sid (.taskRoom taskId)
            (.taskUpdated taskId uid) }
      else
        { state := st
          deliveries := [(sid, .errorMsg "Access denied for task update")] }
  | none =>
      { state := st
        deliveries := [(sid, .errorMsg "Access denied for task update")] }

/-- The `task:comment` handler: requires `view` access, then broadcasts the
comment with `io.to`, i.e. to every member of the task room including the
sender. -/
def onTaskComment (st : SocketState) (sid : SocketId) (uid : UserId)
    (taskId : TaskId) : OpResult :=
  match findById st.tasks taskId with
  | some t =>
      if t.hasAccess uid .view then
        { state := st
          deliveries := ioTo st.members (.taskRoom taskId)
            (.taskCommentNew taskId uid) }
      else
        { state := st
          deliveries := [(sid, .errorMsg "Access denied for commenting")] }
  | none =>
      { state := st
        deliveries := [(sid, .errorMsg "Access denied for commenting")] }

/-- The `task:typing` handler: no access check at all; the typing status is
rebroadcast to the task room excluding the sender. -/
def onTaskTyping (st : SocketState) (sid : SocketId) (uid : UserId)
    (taskId : TaskId) (isTyping : Bool) : OpResult :=
  { state := st
    deliveries := socketTo st.members sid (.taskRoom taskId)
      (.typingStatus taskId uid isTyping) }

/-- The notification recipient list of the `task:status:change` handler:
owner, then assignees, then shared users, the sender filtered out. -/
def notificationRecipients (t : Task) (uid : UserId) : List UserId :=
  ([t.owner] ++ t.assignees.map (fun a => a.user) ++
    t.sharedWith.map (fun s => s.user)).filter (fun u => u != uid)

/-- The `task:status:change` handler: requires `edit` access, broadcasts
the status change to the task room excluding the sender, then emits a
notification to the inbox room of every recipient. -/
def onTaskStatusChange (st : SocketState) (sid : SocketId) (uid : UserId)
    (taskId : TaskId) (fromS toS : String) : OpResult :=
  match findById st.tasks taskId with
  | some t =>
      if t.hasAccess uid .edit then
        { state := st
          deliveries :=
            socketTo st.members sid (.taskRoom taskId)
              (.taskStatusChanged taskId fromS toS uid) ++
            (notificationRecipients t uid).flatMap
              (fun r => ioTo st.members (.userRoom r)
                (.notification taskId uid toS)) }
      else
        { state := st
          deliveries := [(sid, .errorMsg "Access denied for status change")] }
  | none =>
      { state := st
        deliveries := [(sid, .errorMsg "Access denied for status change")] }

/-- The `disconnect` handler: delete the user from `connectedUsers`,
broadcast offline status, notify the task rooms of the socket; afterwards
Socket.IO removes the socket from every room. -/
def onDisconnect (st : SocketState) (sid : SocketId) (uid : UserId) :
    OpResult :=
  let cu := mapDelete st.connectedUsers uid
  let statusOut := broadcastUserStatus st.tasks st.members uid "offline"
  let leftOut := ((socketRooms st.members sid).filter
      (fun r => match r with | .taskRoom _ => true | .userRoom _ => false)).flatMap
    (fun r => socketTo st.members sid r (.userLeftDisconnected uid))
  { state := { st with connectedUsers := cu, members := removeSocket st.members sid }
    deliveries := statusOut ++ leftOut }

/-- HTTP outcome of a route, as far as the claims need it. -/
inductive HttpStatus where
  | ok
  | notFound
  | forbidden
  | badRequest
deriving DecidableEq, Repr

/-- Result of a REST route invocation: the successor state, the socket
deliveries it performs, and the HTTP status. -/
structure RouteResult where
  state : SocketState
  deliveries : List Delivery
  status : HttpStatus
deriving DecidableEq, Repr

/-- Embedding of DELETE `/api/tasks/:id` with the `checkTaskAccess('admin')`
middleware: 404 when the task is missing, 403 without `admin` access, 400
when subtasks exist, otherwise the task is removed from the store and a
JSON success response is returned. No socket event is emitted anywhere on
this path. -/
def deleteTaskRoute (st : SocketState) (uid : UserId) (taskId : TaskId) :
    RouteResult :=
  match findById st.tasks taskId with
  | none => { state := st, deliveries := [], status := .notFound }
  | some t =>
      if !(t.hasAccess uid .admin) then
        { state := st, deliveries := [], status := .forbidden }
      else if !t.subtasks.isEmpty then
        { state := st, deliveries := [], status := .badRequest }
      else
        { state := { st with tasks := st.tasks.filter (fun x => x.id != taskId) }
          deliveries := []
          status := .ok }

/-- Empty server state over the store holding only `taskAssigned`. -/
def presenceState0 : SocketState :=
  { tasks := [taskAssigned], connectedUsers := [], members := [] }

/-- After u2 connects with socket s2. -/
def presenceState1 : SocketState :=
  (onConnection presenceState0 "s2" "u2").state

/-- After u1 additionally connects with socket s1a: u1 now has exactly one
active connection, u2 (a collaborator through `taskAssigned`) is online. -/
def presenceState2 : SocketState :=
  (onConnection presenceState1 "s1a" "u1").state

/-- Empty server state with an empty task store, for the registry claims. -/
def registryState0 : SocketState :=
  { tasks := [], connectedUsers := [], members := [] }

/-- After u1 connects with socket s1a. -/
def registryState1 : SocketState :=
  (onConnection registryState0 "s1a" "u1").state

/-- After u1 opens a second simultaneous connection s1b. -/
def registryState2 : SocketState :=
  (onConnection registryState1 "s1b" "u1").state

/-- After one of the two connections of u1, namely s1b, disconnects. -/
def registryState3 : SocketState :=
  (onDisconnect registryState2 "s1b" "u1").state

/-- A state in which s1 (user u1) and s2 (user u2) are both members of the
room of `taskAssigned`, each also in its own inbox room. -/
def roomState : SocketState :=
  { tasks := [taskAssigned]
    connectedUsers := [("u1", "s1"), ("u2", "s2")]
    members := [("s1", .userRoom "u1"), ("s2", .userRoom "u2"),
                ("s1", .taskRoom "T1"), ("s2", .taskRoom "T1")] }

/-- A state in which s2 (user u2) is in the room of `taskAssigned` while
s3 belongs to u3, a user with no relation to the task. -/
def outsiderState : SocketState :=
  { tasks := [taskAssigned]
    connectedUsers := [("u2", "s2"), ("u3", "s3")]
    members := [("s2", .userRoom "u2"), ("s3", .userRoom "u3"),
                ("s2", .taskRoom "T1")] }

end TaskFlow

namespace TaskFlow

/-- A socket is listed among the members of a room iff the membership pair
is in the relation. -/
theorem mem_roomMembers {ms : List (SocketId × RoomId)} {r : RoomId}
    {m : SocketId} : m ∈ roomMembers ms r ↔ (m, r) ∈ ms := by
  unfold roomMembers
  rw [List.mem_map]
  constructor
  · rintro ⟨⟨a, b⟩, hp, rfl⟩
    rw [List.mem_filter] at hp
    obtain ⟨hmem, hbr⟩ := hp
    have hb : b = r := by simpa using hbr
    simpa [hb] using hmem
  · intro h
    exact ⟨(m, r), List.mem_filter.mpr ⟨h, by simp⟩, rfl⟩

/-- Characterization of the deliveries of `socket.to(room).emit`. -/
theorem mem_socketTo {ms : List (SocketId × RoomId)} {sender : SocketId}
    {r : RoomId} {e : Event} {m : SocketId} {ev : Event} :
    (m, ev) ∈ socketTo ms sender r e ↔
      ((m, r) ∈ ms ∧ m ≠ sender ∧ ev = e) := by
  unfold socketTo
  rw [List.mem_map]
  constructor
  · rintro ⟨x, hx, hxe⟩
    rw [List.mem_filter] at hx
    obtain ⟨h1, h2⟩ := Prod.mk.injEq .. ▸ hxe
    subst h1
    exact ⟨mem_roomMembers.mp hx.1, by simpa using hx.2, h2.symm⟩
  · rintro ⟨h1, h2, rfl⟩
    exact ⟨m, List.mem_filter.mpr ⟨mem_roomMembers.mpr h1, by simpa using h2⟩,
      rfl⟩

/-- Characterization of the deliveries of `io.to(room).emit`. -/
theorem mem_ioTo {ms : List (SocketId × RoomId)} {r : RoomId} {e : Event}
    {m : SocketId} {ev : Event} :
    (m, ev) ∈ ioTo ms r e ↔ ((m, r) ∈ ms ∧ ev = e) := by
  unfold ioTo
  rw [List.mem_map]
  constructor
  · rintro ⟨x, hx, hxe⟩
    obtain ⟨h1, h2⟩ := Prod.mk.injEq .. ▸ hxe
    subst h1
    exact ⟨mem_roomMembers.mp hx, h2.symm⟩
  · rintro ⟨h1, rfl⟩
    exact ⟨m, mem_roomMembers.mpr h1, rfl⟩

/-- Characterization of the deliveries of `broadcastUserStatus`. -/
theorem mem_broadcastUserStatus {tasks : List Task}
    {ms : List (SocketId × RoomId)} {uid : UserId} {status : String}
    {m : SocketId} {ev : Event} :
    (m, ev) ∈ broadcastUserStatus tasks ms uid status ↔
      ∃ c ∈ collaboratorsOf tasks uid,
        (m, RoomId.userRoom c) ∈ ms ∧ ev = .userStatus uid status := by
  unfold broadcastUserStatus
  rw [List.mem_flatMap]
  constructor
  · rintro ⟨c, hc, hin⟩
    exact ⟨c, hc, mem_ioTo.mp hin⟩
  · rintro ⟨c, hc, h1, h2⟩
    exact ⟨c, hc, mem_ioTo.mpr ⟨h1, h2⟩⟩

/-- `socket.join` only adds membership pairs. -/
theorem mem_joinRoom_of_mem {ms : List (SocketId × RoomId)} {sid : SocketId}
    {r : RoomId} {p : SocketId × RoomId} (h : p ∈ ms) :
    p ∈ joinRoom ms sid r := by
  unfold joinRoom
  split
  · exact h
  · exact List.mem_append_left _ h

/-- Looking up the key just set returns the new value. -/
theorem mapLookup_mapSet_self (m : List (UserId × SocketId)) (k : UserId)
    (v : SocketId) : mapLookup (mapSet m k v) k = some v := by
  induction m with
  | nil => simp [mapSet, mapLookup]
  | cons p rest ih =>
      obtain ⟨k₁, v₁⟩ := p
      by_cases h : (k₁ == k) = true
      · simp [mapSet, h, mapLookup]
      · rw [mapSet]
        rw [Bool.not_eq_true] at h
        rw [h]
        simp only [cond_false, mapLookup, List.find?]
        rw [h]
        exact ih

/-- Looking up the key just deleted returns nothing. -/
theorem mapLookup_mapDelete_self (m : List (UserId × SocketId)) (k : UserId) :
    mapLookup (mapDelete m k) k = none := by
  unfold mapLookup mapDelete
  have hfind : List.find? (fun p => p.1 == k)
      (List.filter (fun p => p.1 != k) m) = none := by
    rw [List.find?_eq_none]
    intro p hp
    rw [List.mem_filter] at hp
    have h₂ := hp.2
    simp only [bne_iff_ne, ne_eq] at h₂
    simpa using h₂
  rw [hfind]
  rfl

/-- C1 counterexample: u2 is a non-owner assignee of `taskAssigned` with no
`sharedWith` entry, yet `hasAccess` grants the `admin` permission, so the
claim that assignees are denied `admin` is false on the code. -/
theorem C1_counterexample :
    taskAssigned.owner ≠ "u2" ∧
    taskAssigned.assignees.any (fun a => a.user == "u2") = true ∧
    taskAssigned.sharedWith = [] ∧
    taskAssigned.hasAccess "u2" Perm.admin = true := by
  refine ⟨by decide, by decide, rfl, by decide⟩

/-- C1 (amended): for every task and every actor that is not the owner but
appears in the assignee list, `hasAccess` grants every permission — `view`,
`edit` and also `admin` — regardless of any `sharedWith` entry. -/
theorem C1_assignee_full_access (t : Task) (a : UserId) (p : Perm)
    (hown : t.owner ≠ a)
    (hassign : t.assignees.any (fun x => x.user == a) = true) :
    t.hasAccess a p = true := by
  unfold Task.hasAccess
  rw [hassign]
  simp

/-- Witness for C1 (amended) at the concrete task `taskAssigned`. -/
theorem C1_assignee_full_access_witness :
    taskAssigned.owner ≠ "u2" ∧
    taskAssigned.assignees.any (fun x => x.user == "u2") = true ∧
    taskAssigned.hasAccess "u2" Perm.admin = true :=
  ⟨by decide, by decide,
    C1_assignee_full_access taskAssigned "u2" Perm.admin (by decide) (by decide)⟩

/-- C7: for a non-owner, non-assignee actor, access is decided by the first
`sharedWith` entry for that actor: granted iff the rank of the granted
permission is at least the rank of the required one, and denied for every
required permission when no entry exists. -/
theorem C7_shared_rank_semantics (t : Task) (a : UserId) (req : Perm)
    (hown : t.owner ≠ a)
    (hassign : t.assignees.any (fun x => x.user == a) = false) :
    (∀ s, t.sharedWith.find? (fun x => x.user == a) = some s →
      (t.hasAccess a req = true ↔ permIndex req ≤ permIndex s.permission)) ∧
    (t.sharedWith.find? (fun x => x.user == a) = none →
      t.hasAccess a req = false) := by
  have howneq : (t.owner == a) = false := by
    exact beq_eq_false_iff_ne.mpr hown
  constructor
  · intro s hs
    unfold Task.hasAccess
    rw [howneq, hassign, hs]
    simp
  · intro hnone
    unfold Task.hasAccess
    rw [howneq, hassign, hnone]
    simp

/-- Witness for C7 at `taskSharedEdit`: u3 holds `edit`, so `admin` access is
equivalent to rank(admin) ≤ rank(edit), which is false. -/
theorem C7_shared_rank_semantics_witness :
    taskSharedEdit.owner ≠ "u3" ∧
    taskSharedEdit.assignees.any (fun x => x.user == "u3") = false ∧
    taskSharedEdit.sharedWith.find? (fun x => x.user == "u3") =
      some { user := "u3", permission := .edit } ∧
    (taskSharedEdit.hasAccess "u3" Perm.admin = true ↔
      permIndex Perm.admin ≤ permIndex Perm.edit) :=
  ⟨by decide, by decide, by decide,
    (C7_shared_rank_semantics taskSharedEdit "u3" Perm.admin (by decide)
      (by decide)).1 { user := "u3", permission := .edit } (by decide)⟩

/-- C2 counterexample: in `presenceState2` user u1 has exactly one active
connection s1a; opening a second connection s1b nevertheless delivers an
online presence event to the collaborator socket s2, and closing s1b while
s1a stays active delivers an offline event — so presence is not restricted
to the 0-to-1 and 1-to-0 transitions of the connection count. -/
theorem C2_counterexample :
    mapLookup presenceState2.connectedUsers "u1" = some "s1a" ∧
    ("s2", Event.userStatus "u1" "online") ∈
      (onConnection presenceState2 "s1b" "u1").deliveries ∧
    ("s2", Event.userStatus "u1" "offline") ∈
      (onDisconnect (onConnection presenceState2 "s1b" "u1").state
        "s1b" "u1").deliveries := by
  decide

/-- C2 (amended): the handlers broadcast presence on every connection and
every disconnect: whenever c is a collaborator of the affected user and m
is a member of the inbox room of c, m receives the online status event on
any connection of the user and the offline status event on any disconnect,
regardless of how many other connections the user holds. -/
theorem C2_presence_every_transition (st : SocketState) (sid : SocketId)
    (uid c : UserId) (m : SocketId)
    (hc : c ∈ collaboratorsOf st.tasks uid)
    (hm : (m, RoomId.userRoom c) ∈ st.members) :
    (m, Event.userStatus uid "online") ∈
      (onConnection st sid uid).deliveries ∧
    (m, Event.userStatus uid "offline") ∈
      (onDisconnect st sid uid).deliveries := by
  constructor
  · unfold onConnection
    apply List.mem_append_right
    rw [mem_broadcastUserStatus]
    exact ⟨c, hc, mem_joinRoom_of_mem hm, rfl⟩
  · unfold onDisconnect
    apply List.mem_append_left
    rw [mem_broadcastUserStatus]
    exact ⟨c, hc, hm, rfl⟩

/-- Witness for C2 (amended) in the concrete two-connection scenario. -/
theorem C2_presence_every_transition_witness :
    "u2" ∈ collaboratorsOf presenceState2.tasks "u1" ∧
    ("s2", RoomId.userRoom "u2") ∈ presenceState2.members ∧
    ("s2", Event.userStatus "u1" "online") ∈
      (onConnection presenceState2 "s1b" "u1").deliveries :=
  ⟨by decide, by decide,
    (C2_presence_every_transition presenceState2 "s1b" "u1" "u2" "s2"
      (by decide) (by decide)).1⟩

/-- C3 counterexample: after u1 registers the second connection s1b, the
first connection s1a is still a member of the inbox room but no longer
appears anywhere in the registry; and after s1b disconnects, s1a keeps its
room membership while the registry holds no entry for u1 at all. -/
theorem C3_counterexample :
    "s1a" ∈ roomMembers registryState2.members (.userRoom "u1") ∧
    "s1a" ∉ registryState2.connectedUsers.map (fun p => p.2) ∧
    "s1a" ∈ roomMembers registryState3.members (.userRoom "u1") ∧
    registryState3.connectedUsers = [] := by
  decide

/-- C3 (amended): the registry keeps at most one connection per user: after
any connection, the user maps exactly to the new socket (overwriting a
previous one), and after any disconnect of one of the user's sockets the
user has no registry entry at all — hence room membership can name
connections absent from the registry, as the counterexample shows. -/
theorem C3_registry_one_per_user (st : SocketState) (sid : SocketId)
    (uid : UserId) :
    mapLookup (onConnection st sid uid).state.connectedUsers uid = some sid ∧
    mapLookup (onDisconnect st sid uid).state.connectedUsers uid = none := by
  constructor
  · unfold onConnection
    exact mapLookup_mapSet_self _ _ _
  · unfold onDisconnect
    exact mapLookup_mapDelete_self _ _

/-- C4 counterexample: s1 is a member of the room of `taskAssigned` and
publishes a comment; the handler uses io.to, so s1 itself receives the
comment event, refuting zero deliveries to the originator. -/
theorem C4_counterexample :
    ("s1", RoomId.taskRoom "T1") ∈ roomState.members ∧
    ("s1", Event.taskCommentNew "T1" "u1") ∈
      (onTaskComment roomState "s1" "u1" "T1").deliveries := by
  decide

/-- C4 (amended): an accepted comment is delivered to exactly the members
of the task room, the originating connection included. -/
theorem C4_comment_all_members (st : SocketState) (sid : SocketId)
    (uid : UserId) (taskId : TaskId) (t : Task) (m : SocketId)
    (hfind : findById st.tasks taskId = some t)
    (hacc : t.hasAccess uid .view = true) :
    ((m, Event.taskCommentNew taskId uid) ∈
        (onTaskComment st sid uid taskId).deliveries ↔
      (m, RoomId.taskRoom taskId) ∈ st.members) := by
  unfold onTaskComment
  rw [hfind]
  simp only [hacc]
  rw [if_pos trivial]
  rw [mem_ioTo]
  simp

/-- Witness for C4 (amended) at the concrete room state. -/
theorem C4_comment_all_members_witness :
    findById roomState.tasks "T1" = some taskAssigned ∧
    taskAssigned.hasAccess "u1" Perm.view = true ∧
    (("s1", Event.taskCommentNew "T1" "u1") ∈
        (onTaskComment roomState "s1" "u1" "T1").deliveries ↔
      ("s1", RoomId.taskRoom "T1") ∈ roomState.members) :=
  ⟨by decide, by decide,
    C4_comment_all_members roomState "s1" "u1" "T1" taskAssigned "s1"
      (by decide) (by decide)⟩

/-- C5: when the requesting user is neither owner nor assignee nor a
`sharedWith` entry of any task with the requested id, the join is denied:
exactly one error event goes back to the requester and the entire state —
in particular the membership of the task room — is unchanged. -/
theorem C5_join_denied (st : SocketState) (sid : SocketId) (uid : UserId)
    (taskId : TaskId)
    (hno : ∀ t ∈ st.tasks, t.id = taskId →
      t.owner ≠ uid ∧ (∀ a ∈ t.assignees, a.user ≠ uid) ∧
      (∀ s ∈ t.sharedWith, s.user ≠ uid)) :
    (onJoinTask st sid uid taskId).deliveries =
      [(sid, Event.errorMsg "Access denied to task room")] ∧
    (onJoinTask st sid uid taskId).state = st := by
  have hfind : findOneAccessible st.tasks taskId uid = none := by
    unfold findOneAccessible
    rw [List.find?_eq_none]
    intro t ht
    simp only [Bool.and_eq_true, Bool.or_eq_true, beq_iff_eq,
      List.any_eq_true]
    rintro ⟨hid, (ho | ⟨a, ha, hau⟩) | ⟨s, hs, hsu⟩⟩
    · exact (hno t ht hid).1 ho
    · exact (hno t ht hid).2.1 a ha hau
    · exact (hno t ht hid).2.2 s hs hsu
  unfold onJoinTask
  rw [hfind]
  exact ⟨rfl, rfl⟩

/-- Witness for C5: u3, unrelated to `taskAssigned`, attempts to join its
room in `outsiderState`; the room membership stays exactly as before. -/
theorem C5_join_denied_witness :
    (∀ t ∈ outsiderState.tasks, t.id = "T1" →
      t.owner ≠ "u3" ∧ (∀ a ∈ t.assignees, a.user ≠ "u3") ∧
      (∀ s ∈ t.sharedWith, s.user ≠ "u3")) ∧
    (onJoinTask outsiderState "s3" "u3" "T1").deliveries =
      [("s3", Event.errorMsg "Access denied to task room")] ∧
    (onJoinTask outsiderState "s3" "u3" "T1").state = outsiderState :=
  ⟨by decide, C5_join_denied outsiderState "s3" "u3" "T1" (by decide)⟩

/-- C6: the DELETE route never emits a socket event and never changes room
membership, for any state and input; concretely, deleting T1 out of
`roomState` succeeds with zero deliveries while s1 and s2 remain members of
the room of the deleted task — no TaskDeleted fan-out, no teardown. -/
theorem C6_delete_no_event_no_teardown :
    (∀ st uid taskId, (deleteTaskRoute st uid taskId).deliveries = [] ∧
      (deleteTaskRoute st uid taskId).state.members = st.members) ∧
    (deleteTaskRoute roomState "u1" "T1").status = HttpStatus.ok ∧
    roomMembers (deleteTaskRoute roomState "u1" "T1").state.members
      (.taskRoom "T1") = ["s1", "s2"] := by
  refine ⟨fun st uid taskId => ?_, by decide, by decide⟩
  unfold deleteTaskRoute
  cases h : findById st.tasks taskId
  · exact ⟨rfl, rfl⟩
  · dsimp only
    split
    · exact ⟨rfl, rfl⟩
    · split
      · exact ⟨rfl, rfl⟩
      · exact ⟨rfl, rfl⟩

/-- C8: an accepted task update published by a room member is delivered
exactly to the other members of that task room: every delivery carries the
update event, targets a member of the room, and never the sender — hence
zero deliveries to the sender and to members of any other room. -/
theorem C8_update_fanout (st : SocketState) (sid : SocketId) (uid : UserId)
    (taskId : TaskId) (t : Task) (m : SocketId) (ev : Event)
    (hfind : findById st.tasks taskId = some t)
    (hacc : t.hasAccess uid .edit = true)
    (hmem : (sid, RoomId.taskRoom taskId) ∈ st.members) :
    ((m, ev) ∈ (onTaskUpdate st sid uid taskId).deliveries ↔
      (ev = Event.taskUpdated taskId uid ∧
        (m, RoomId.taskRoom taskId) ∈ st.members ∧ m ≠ sid)) := by
  unfold onTaskUpdate
  rw [hfind]
  simp only [hacc]
  rw [if_pos trivial]
  rw [mem_socketTo]
  tauto

/-- Witness for C8 at the concrete room state: s2 receives the update
published by s1. -/
theorem C8_update_fanout_witness :
    findById roomState.tasks "T1" = some taskAssigned ∧
    taskAssigned.hasAccess "u1" Perm.edit = true ∧
    ("s1", RoomId.taskRoom "T1") ∈ roomState.members ∧
    (("s2", Event.taskUpdated "T1" "u1") ∈
        (onTaskUpdate roomState "s1" "u1" "T1").deliveries ↔
      (Event.taskUpdated "T1" "u1" = Event.taskUpdated "T1" "u1" ∧
        ("s2", RoomId.taskRoom "T1") ∈ roomState.members ∧ "s2" ≠ "s1")) :=
  ⟨by decide, by decide, by decide,
    C8_update_fanout roomState "s1" "u1" "T1" taskAssigned "s2"
      (Event.taskUpdated "T1" "u1") (by decide) (by decide) (by decide)⟩

/-- C9 counterexample: u3 has no view access to `taskAssigned`, yet the
typing event pushed by its socket s3 is delivered to the room member s2 —
the typing handler applies no access check. -/
theorem C9_counterexample :
    taskAssigned.hasAccess "u3" Perm.view = false ∧
    ("s2", Event.typingStatus "T1" "u3" true) ∈
      (onTaskTyping outsiderState "s3" "u3" "T1" true).deliveries := by
  decide

/-- C9 (amended): the typing handler performs no access check whatsoever:
for every state and every pushing connection, the typing event is
rebroadcast to exactly the members of the task room other than the sender,
with no condition on the sender's access to the task. -/
theorem C9_typing_unchecked_fanout (st : SocketState) (sid : SocketId)
    (uid : UserId) (taskId : TaskId) (b : Bool) (m : SocketId) (ev : Event) :
    ((m, ev) ∈ (onTaskTyping st sid uid taskId b).deliveries ↔
      (ev = Event.typingStatus taskId uid b ∧
        (m, RoomId.taskRoom taskId) ∈ st.members ∧ m ≠ sid)) := by
  unfold onTaskTyping
  rw [mem_socketTo]
  tauto

/-- C10: an accepted status change notifies the related users: the
recipient list is exactly owner, assignees and shared users minus the
sender, every member of each recipient's inbox room receives the
notification event, and the task room members other than the sender
receive the status-changed broadcast. -/
theorem C10_status_change_notifies_related (st : SocketState)
    (sid : SocketId) (uid : UserId) (taskId : TaskId) (t : Task)
    (fromS toS : String)
    (hfind : findById st.tasks taskId = some t)
    (hacc : t.hasAccess uid .edit = true) :
    (∀ r, r ∈ notificationRecipients t uid ↔
      ((r = t.owner ∨ (∃ a ∈ t.assignees, a.user = r) ∨
        (∃ s ∈ t.sharedWith, s.user = r)) ∧ r ≠ uid)) ∧
    (∀ r ∈ notificationRecipients t uid, ∀ m,
      (m, RoomId.userRoom r) ∈ st.members →
      (m, Event.notification taskId uid toS) ∈
        (onTaskStatusChange st sid uid taskId fromS toS).deliveries) ∧
    (∀ m, (m, RoomId.taskRoom taskId) ∈ st.members → m ≠ sid →
      (m, Event.taskStatusChanged taskId fromS toS uid) ∈
        (onTaskStatusChange st sid uid taskId fromS toS).deliveries) := by
  refine ⟨?_, ?_, ?_⟩
  · intro r
    unfold notificationRecipients
    rw [List.mem_filter]
    simp only [List.mem_append, List.mem_map, List.mem_singleton,
      bne_iff_ne, ne_eq]
    rw [or_assoc]
  · intro r hr m hm
    unfold onTaskStatusChange
    rw [hfind]
    simp only [hacc]
    rw [if_pos trivial]
    apply List.mem_append_right
    rw [List.mem_flatMap]
    exact ⟨r, hr, mem_ioTo.mpr ⟨hm, rfl⟩⟩
  · intro m hm hne
    unfold onTaskStatusChange
    rw [hfind]
    simp only [hacc]
    rw [if_pos trivial]
    apply List.mem_append_left
    exact mem_socketTo.mpr ⟨hm, hne, rfl⟩

/-- Witness for C10: the status change by u1 on `taskAssigned` notifies
the inbox socket of the assignee u2. -/
theorem C10_status_change_notifies_related_witness :
    findById roomState.tasks "T1" = some taskAssigned ∧
    taskAssigned.hasAccess "u1" Perm.edit = true ∧
    ("s2", Event.notification "T1" "u1" "completed") ∈
      (onTaskStatusChange roomState "s1" "u1" "T1" "todo"
        "completed").deliveries :=
  ⟨by decide, by decide,
    (C10_status_change_notifies_related roomState "s1" "u1" "T1"
      taskAssigned "todo" "completed" (by decide) (by decide)).2.1 "u2"
      (by decide) "s2" (by decide)⟩

end TaskFlow
